import Mathlib

/-!
# Verification of the taxi-trends data-cleaning transforms

A shallow embedding of `src/scripts/data_utils.py`: the cancellation
resolver (`identify_cancelled_rides`, `remove_cancelled_fare_pairs`) and the
outlier filter (`remove_outliers`), modelled over in-memory tables.

A pandas DataFrame is modelled as a list of (index label, row) pairs, where a
row is an association list from column names to cell values.  Cell values are
strings, exact rationals (standing for the numeric columns), or null (NaN).
Pandas' in-place column assignment in `identify_cancelled_rides` is modelled
by state passing: the function returns the updated table next to its result.
-/

attribute [local semireducible] Rat.mul Rat.inv Rat.add Rat.sub

/-- A cell of the table: a string, a numeric value, or a null (NaN). -/
inductive Val where
  | str : String → Val
  | num : ℚ → Val
  | null : Val
deriving DecidableEq, Repr

/-- A row: association list from column names to cell values. -/
abbrev Row : Type := List (String × Val)

/-- A DataFrame: rows tagged with their (pandas) index labels. -/
abbrev DF : Type := List (Nat × Row)

instance : DecidableEq (Except Unit DF) := fun a b =>
  match a, b with
  | .ok x, .ok y =>
    if h : x = y then .isTrue (by rw [h]) else .isFalse (by simp [h])
  | .error x, .error y => .isTrue (by cases x; cases y; rfl)
  | .ok _, .error _ => .isFalse (by simp)
  | .error _, .ok _ => .isFalse (by simp)

/-- Column lookup; a column absent from the row reads as null. -/
def Row.get (r : Row) (c : String) : Val :=
  match r.find? (fun p => p.1 == c) with
  | some p => p.2
  | none => Val.null

/-- `v < 0` as pandas evaluates it: false on strings and on NaN. -/
def Val.lt0 : Val → Bool
  | .num q => q < 0
  | _ => false

/-- `v > 0` as pandas evaluates it: false on strings and on NaN. -/
def Val.gt0 : Val → Bool
  | .num q => 0 < q
  | _ => false

/-- `v >= 0` as pandas evaluates it: false on strings and on NaN. -/
def Val.ge0 : Val → Bool
  | .num q => 0 ≤ q
  | _ => false

/-- `a == -b` elementwise, as the numpy comparison in the fee-opposite mask. -/
def Val.isNegOf : Val → Val → Bool
  | .num a, .num b => a == -b
  | _, _ => false

/-- One cell of the null-normalisation in `identify_cancelled_rides`:
nulls in `ride_id_cols` become the placeholder string, nulls in `fee_cols`
become 0, other cells are untouched. -/
def fillCell (ids fees : List String) (c : String) (v : Val) : Val :=
  if c ∈ ids then (if v = Val.null then Val.str "N/A" else v)
  else if c ∈ fees then (if v = Val.null then Val.num 0 else v)
  else v

/-- The null-normalisation applied to a whole row. -/
def fillRow (ids fees : List String) (r : Row) : Row :=
  r.map (fun p => (p.1, fillCell ids fees p.1 p.2))

/-- `(df[fee_cols] < 0).any(axis=1)`: some fee column is negative. -/
def isNegRow (fees : List String) (r : Row) : Bool :=
  fees.any (fun f => Val.lt0 (r.get f))

/-- `(df[fee_cols] > 0).any(axis=1)`: some fee column is positive. -/
def isPosRow (fees : List String) (r : Row) : Bool :=
  fees.any (fun f => Val.gt0 (r.get f))

/-- The composite identity key of a row: the tuple of its id-column values. -/
def keyOf (ids : List String) (r : Row) : List Val :=
  ids.map (fun c => r.get c)

/-- `neg_fare.merge(pos_fare, on=ride_id_cols)`: equi-join of the negative
group against the positive group on the identity key, a cross-product within
each key bucket, left-major order.  The merged frame carries a fresh range
index, so only the joined row contents are kept here. -/
def mergedPairs (neg pos : List (Nat × Row)) (ids : List String) : List (Row × Row) :=
  neg.flatMap (fun n =>
    (pos.filter (fun p => keyOf ids p.2 == keyOf ids n.2)).map (fun p => (n.2, p.2)))

/-- The fee-opposite mask on one joined pair: every fee column of the
negative side equals the exact negation of the positive side. -/
def matchedFees (fees : List String) (pr : Row × Row) : Bool :=
  fees.all (fun f => Val.isNegOf (pr.1.get f) (pr.2.get f))

/-- Tag list elements with consecutive indices starting at `n` (the fresh
range index a pandas merge result carries). -/
def withIdx (n : Nat) : List α → List (Nat × α)
  | [] => []
  | a :: l => (n, a) :: withIdx (n + 1) l

/-- `identify_cancelled_rides(df, ride_id_cols, fee_cols)`.

Fills nulls in the id columns with `'N/A'` and in the fee columns with 0
(in place on the caller's frame — returned here as the first component),
splits into negative and positive groups, equi-joins them on the identity
key, and keeps the joined pairs whose fee columns are exact opposites.
The second component is `matched_pairs`, each pair carrying its index *in
the merged frame* (a fresh range index, not original row positions). -/
def identify_cancelled_rides (df : DF) (ids fees : List String) :
    DF × List (Nat × (Row × Row)) :=
  let df2 : DF := df.map (fun p => (p.1, fillRow ids fees p.2))
  let neg := df2.filter (fun p => isNegRow fees p.2)
  let pos := df2.filter (fun p => isPosRow fees p.2)
  let merged := mergedPairs neg pos ids
  (df2, (withIdx 0 merged).filter (fun q => matchedFees fees q.2))

/-- `.reset_index(drop=True)`: relabel the rows 0,1,2,…, dropping the old
labels. -/
def resetIndexFrom (n : Nat) : List (Nat × Row) → DF
  | [] => []
  | p :: l => (n, p.2) :: resetIndexFrom (n + 1) l

/-- `.reset_index(drop=True)` starting from 0. -/
def resetIndex (l : List (Nat × Row)) : DF :=
  resetIndexFrom 0 l

/-- `remove_cancelled_fare_pairs(df, matched_pairs)`.

Drops the rows of `df` whose index label lies in `matched_pairs.index`
(which are merged-frame positions), then drops any remaining row with
`fare_amount < 0`, and resets the index. -/
def remove_cancelled_fare_pairs (df : DF) (matched : List (Nat × (Row × Row))) : DF :=
  let matchedIdx := matched.map Prod.fst
  let dfCleaned := df.filter (fun p => !(matchedIdx.contains p.1))
  resetIndex (dfCleaned.filter (fun p => Val.ge0 (p.2.get "fare_amount")))

/-- The cancellation-resolution pipeline: `identify_cancelled_rides`
followed by `remove_cancelled_fare_pairs` on the (mutated) frame. -/
def resolve_cancellations (df : DF) (ids fees : List String) : DF :=
  let r := identify_cancelled_rides df ids fees
  remove_cancelled_fare_pairs r.1 r.2

/-- Numeric content of a cell (the positivity filters guarantee the cell is
numeric wherever this is used). -/
def valQ : Val → ℚ
  | .num q => q
  | _ => 0

/-- Linear-interpolation quantile of a nonempty sorted sample `s`:
interpolate at position `q * (n - 1)`. -/
def interpQuantile (s : List ℚ) (q : ℚ) : ℚ :=
  let h : ℚ := q * ((s.length : ℚ) - 1)
  let i : Nat := (Rat.floor h).toNat
  let a := s.getD i 0
  let b := s.getD (i + 1) a
  a + (h - (i : ℚ)) * (b - a)

/-- `Series.quantile(q)` with linear interpolation: `none` (NaN) on an empty
sample, otherwise interpolate over the sorted values.  (The caller has
already validated `q`.) -/
def seriesQuantile (xs : List ℚ) (q : ℚ) : Option ℚ :=
  match xs with
  | [] => none
  | _ => some (interpQuantile (xs.insertionSort (· ≤ ·)) q)

/-- `Series.between(lo, hi)` (inclusive) where the bounds may be NaN:
any comparison against NaN is false. -/
def betweenO (x : ℚ) : Option ℚ → Option ℚ → Bool
  | some lo, some hi => decide (lo ≤ x) && decide (x ≤ hi)
  | _, _ => false

/-- The positivity filter of `remove_outliers`:
`df[(df[duration_col] > 0) & (df[distance_col] > 0)]`. -/
def positivityFilter (df : DF) (durCol distCol : String) : DF :=
  df.filter (fun p => Val.gt0 (p.2.get durCol) && Val.gt0 (p.2.get distCol))

/-- The values of one column over a frame. -/
def colVals (df : DF) (c : String) : List ℚ :=
  df.map (fun p => valQ (p.2.get c))

/-- `remove_outliers(df, duration_col, distance_col, lower, upper)`.

Filters to strictly positive duration and distance, computes the
lower/upper linear-interpolation quantiles of each column over the filtered
frame, keeps the rows with both values inside their inclusive band, and
resets the index.  A quantile argument outside `[0, 1]` makes pandas'
quantile raise (`Except.error`); quantiles of an empty filtered frame are
NaN, and the band test then rejects every row. -/
def remove_outliers (df : DF) (durCol distCol : String) (lower upper : ℚ) :
    Except Unit DF :=
  if lower < 0 ∨ 1 < lower ∨ upper < 0 ∨ 1 < upper then Except.error () else
  let dfClean := positivityFilter df durCol distCol
  let durationMin := seriesQuantile (colVals dfClean durCol) lower
  let durationMax := seriesQuantile (colVals dfClean durCol) upper
  let distanceMin := seriesQuantile (colVals dfClean distCol) lower
  let distanceMax := seriesQuantile (colVals dfClean distCol) upper
  Except.ok (resetIndex (dfClean.filter (fun p =>
    betweenO (valQ (p.2.get durCol)) durationMin durationMax &&
    betweenO (valQ (p.2.get distCol)) distanceMin distanceMax)))

/-- Spec-side definition of the join candidates (for the refinement claim):
normalise nulls, then take the full cross-product of the negative group with
the positive group restricted to equal identity keys. -/
def specJoinPairs (rows : List Row) (ids fees : List String) : List (Row × Row) :=
  let norm := rows.map (fillRow ids fees)
  (norm.filter (isNegRow fees)).flatMap (fun n =>
    ((norm.filter (isPosRow fees)).filter (fun p => keyOf ids p == keyOf ids n)).map
      (fun p => (n, p)))

/-- Spec-side definition of the accepted Matched Pairs: the join candidates
in which every monetary field of the negative side is the exact negation of
the positive side. -/
def specMatchedPairs (rows : List Row) (ids fees : List String) : List (Row × Row) :=
  (specJoinPairs rows ids fees).filter (matchedFees fees)

/-! ## Concrete example tables used by witnesses and counterexamples -/

/-- Identity columns used in the examples. -/
def exIds : List String := ["vendor"]

/-- Monetary columns used in the single-fee examples. -/
def exFees : List String := ["fare_amount"]

/-- Monetary columns used in the two-fee examples. -/
def exFees2 : List String := ["fare_amount", "tip_amount"]

/-- Record C of the spec's example: key K2, fare +12.50-like positive fare. -/
def rowC : Row := [("vendor", Val.str "K2"), ("fare_amount", Val.num 5)]

/-- Record A of the spec's example: key K, fare +12.50. -/
def rowA : Row := [("vendor", Val.str "K"), ("fare_amount", Val.num (25 / 2))]

/-- Record B of the spec's example: key K, fare -12.50. -/
def rowB : Row := [("vendor", Val.str "K"), ("fare_amount", Val.num (-25 / 2))]

/-- The spec's example table: C at position 0, A at 1, B at 2. -/
def exC1 : DF := [(0, rowC), (1, rowA), (2, rowB)]

/-- A row with zero fare and positive tip, key K. -/
def rowA8 : Row :=
  [("vendor", Val.str "K"), ("fare_amount", Val.num 0), ("tip_amount", Val.num 3)]

/-- A row with zero fare and negative tip, key K: cancels `rowA8`. -/
def rowB8 : Row :=
  [("vendor", Val.str "K"), ("fare_amount", Val.num 0), ("tip_amount", Val.num (-3))]

/-- An unrelated positive row on key K2. -/
def rowC8 : Row :=
  [("vendor", Val.str "K2"), ("fare_amount", Val.num 5), ("tip_amount", Val.num 0)]

/-- Table whose matched pair (rowA8, rowB8) survives the fare filter,
so a second resolution pass still finds it. -/
def exC8 : DF := [(0, rowC8), (1, rowA8), (2, rowB8)]

/-- An outlier-filter row with the given duration and distance value. -/
def rowO (q : ℚ) : Row :=
  [("duration_mins", Val.num q), ("trip_distance", Val.num q), ("fare_amount", Val.num 1)]

/-- Outlier-filter example table with values 1, 2, 3. -/
def exO : DF := [(0, rowO 1), (1, rowO 2), (2, rowO 3)]

/-- A table on which the positivity filter keeps zero rows. -/
def exNeg : DF := [(0, rowO (-1))]

/-- A table with a null identity cell. -/
def rowN : Row := [("vendor", Val.null), ("fare_amount", Val.num 1)]

/-- One-row table with a null identity cell. -/
def exN : DF := [(0, rowN)]

/-- A row whose only null sits in a column outside the identity and
monetary lists. -/
def rowU : Row :=
  [("vendor", Val.str "K"), ("passenger_count", Val.null), ("fare_amount", Val.num 1)]

/-- One-row table with a null only in an unrelated column. -/
def exU : DF := [(0, rowU)]

/-! ## Helper lemmas about the index machinery -/

lemma resetIndexFrom_map_fst (l : List (Nat × Row)) :
    ∀ n, (resetIndexFrom n l).map Prod.fst = List.range' n l.length := by
  induction l with
  | nil => intro n; rfl
  | cons a l ih => intro n; simp [resetIndexFrom, List.range', ih]

lemma resetIndexFrom_map_snd (l : List (Nat × Row)) :
    ∀ n, (resetIndexFrom n l).map Prod.snd = l.map Prod.snd := by
  induction l with
  | nil => intro n; rfl
  | cons a l ih => intro n; simp [resetIndexFrom, ih]

lemma resetIndexFrom_length (l : List (Nat × Row)) :
    ∀ n, (resetIndexFrom n l).length = l.length := by
  induction l with
  | nil => intro n; rfl
  | cons a l ih => intro n; simp [resetIndexFrom, ih]

lemma resetIndex_map_fst (l : List (Nat × Row)) :
    (resetIndex l).map Prod.fst = List.range (resetIndex l).length := by
  rw [resetIndex, resetIndexFrom_map_fst, resetIndexFrom_length, List.range_eq_range']

lemma mem_snd_of_mem_resetIndex {l : List (Nat × Row)} {p : Nat × Row}
    (h : p ∈ resetIndex l) : p.2 ∈ l.map Prod.snd := by
  have : p.2 ∈ (resetIndex l).map Prod.snd := List.mem_map_of_mem Prod.snd h
  rwa [resetIndex, resetIndexFrom_map_snd] at this

lemma resetIndexFrom_resetIndexFrom (l : List (Nat × Row)) :
    ∀ n, resetIndexFrom n (resetIndexFrom n l) = resetIndexFrom n l := by
  induction l with
  | nil => intro n; rfl
  | cons a l ih => intro n; simp [resetIndexFrom, ih]

lemma resetIndex_resetIndex (l : List (Nat × Row)) :
    resetIndex (resetIndex l) = resetIndex l :=
  resetIndexFrom_resetIndexFrom l 0

lemma withIdx_filter_map_snd {α : Type} (p : α → Bool) (l : List α) :
    ∀ n, ((withIdx n l).filter (fun q => p q.2)).map Prod.snd = l.filter p := by
  induction l with
  | nil => intro n; rfl
  | cons a l ih =>
    intro n
    by_cases h : p a = true
    · simp [withIdx, List.filter_cons, h, ih]
    · simp [withIdx, List.filter_cons, h, ih]

/-! ## Helper lemmas about rows, filling, and the removal step -/

lemma list_map_eq_self {α : Type} {f : α → α} :
    ∀ {l : List α}, (∀ a ∈ l, f a = a) → l.map f = l := by
  intro l h
  induction l with
  | nil => rfl
  | cons a l ih =>
    simp only [List.map_cons]
    rw [h a (by simp), ih (fun b hb => h b (by simp [hb]))]

lemma fillCell_of_ne_null {ids fees : List String} {c : String} {v : Val}
    (h : v ≠ Val.null) : fillCell ids fees c v = v := by
  simp [fillCell, h]

lemma fillRow_eq_self {ids fees : List String} {r : Row}
    (h : ∀ e ∈ r, e.2 ≠ Val.null) : fillRow ids fees r = r := by
  apply list_map_eq_self
  intro e he
  obtain ⟨c, v⟩ := e
  simp only
  rw [fillCell_of_ne_null (h _ he)]

lemma fillCell_idem (ids fees : List String) (c : String) (v : Val) :
    fillCell ids fees c (fillCell ids fees c v) = fillCell ids fees c v := by
  by_cases h1 : c ∈ ids
  · by_cases h2 : v = Val.null <;> simp [fillCell, h1, h2]
  · by_cases h2 : c ∈ fees
    · by_cases h3 : v = Val.null <;> simp [fillCell, h1, h2, h3]
    · simp [fillCell, h1, h2]

lemma fillRow_idem (ids fees : List String) (r : Row) :
    fillRow ids fees (fillRow ids fees r) = fillRow ids fees r := by
  unfold fillRow
  rw [List.map_map]
  induction r with
  | nil => rfl
  | cons e r ih =>
    simp only [List.map_cons, Function.comp_apply, List.cons.injEq]
    exact ⟨by rw [fillCell_idem], ih⟩

lemma identify_fst_eq (df : DF) (ids fees : List String) :
    (identify_cancelled_rides df ids fees).1
      = df.map (fun p => (p.1, fillRow ids fees p.2)) := rfl

lemma resolve_eq (df : DF) (ids fees : List String) :
    resolve_cancellations df ids fees
      = remove_cancelled_fare_pairs (identify_cancelled_rides df ids fees).1
          (identify_cancelled_rides df ids fees).2 := rfl

lemma map_snd_fill (df : DF) (ids fees : List String) :
    (df.map (fun p => (p.1, fillRow ids fees p.2))).map Prod.snd
      = (df.map Prod.snd).map (fillRow ids fees) := by
  rw [List.map_map, List.map_map]
  rfl

lemma Val.lt0_eq_false_of_ge0 {v : Val} (h : Val.ge0 v = true) :
    Val.lt0 v = false := by
  cases v with
  | str s => rfl
  | null => rfl
  | num q =>
    simp only [Val.ge0, decide_eq_true_eq] at h
    simp only [Val.lt0, decide_eq_false_iff_not, not_lt]
    exact h

lemma ge0_of_mem_remove {d : DF} {m : List (Nat × (Row × Row))} {p : Nat × Row}
    (h : p ∈ remove_cancelled_fare_pairs d m) :
    Val.ge0 (p.2.get "fare_amount") = true := by
  simp only [remove_cancelled_fare_pairs] at h
  have h2 := mem_snd_of_mem_resetIndex h
  obtain ⟨q, hq, hqe⟩ := List.mem_map.mp h2
  rw [← hqe]
  exact (List.mem_filter.mp hq).2

lemma snd_mem_of_mem_remove {d : DF} {m : List (Nat × (Row × Row))} {p : Nat × Row}
    (h : p ∈ remove_cancelled_fare_pairs d m) :
    p.2 ∈ d.map Prod.snd := by
  simp only [remove_cancelled_fare_pairs] at h
  have h2 := mem_snd_of_mem_resetIndex h
  obtain ⟨q, hq, hqe⟩ := List.mem_map.mp h2
  rw [← hqe]
  exact List.mem_map_of_mem Prod.snd (List.mem_filter.mp (List.mem_filter.mp hq).1).1

/-! ## The claims -/

/-- C1: the spec says cancellation resolution removes both sides of a
Matched Pair by original row position and retains unmatched non-negative
records.  The code instead removes rows whose label equals a *merged-frame*
position: on the spec's own example (C at position 0 on key K2; the pair
A, B at positions 1, 2 on key K) the pair (B, A) is correctly identified,
yet the output keeps A and drops the unmatched record C. -/
theorem c1_code_evaluation :
    (identify_cancelled_rides exC1 exIds exFees).2.map Prod.snd = [(rowB, rowA)] ∧
      resolve_cancellations exC1 exIds exFees = [(0, rowA)] := by
  constructor
  · decide
  · decide

/-- C7: every record remaining after `remove_cancelled_fare_pairs` has a
non-negative fare amount (the final `fare_amount >= 0` filter guarantees
it). -/
theorem no_negative_fare_after_removal (df : DF) (matched : List (Nat × (Row × Row))) :
    (remove_cancelled_fare_pairs df matched).all
      (fun p => !(Val.lt0 (p.2.get "fare_amount"))) = true := by
  rw [List.all_eq_true]
  intro p hp
  rw [Val.lt0_eq_false_of_ge0 (ge0_of_mem_remove hp)]
  rfl

/-- C9: on an empty input table, the cancellation-resolution pipeline
returns an empty table (and, being total, raises no error). -/
theorem resolve_cancellations_empty (ids fees : List String) :
    resolve_cancellations [] ids fees = [] := rfl

/-- C10: both `remove_cancelled_fare_pairs` and `remove_outliers` return
tables whose row labels are the freshly reset consecutive integers
0..n-1 (so original labels of retained rows are not preserved). -/
theorem outputs_have_reset_index (df : DF) (matched : List (Nat × (Row × Row)))
    (durCol distCol : String) (lower upper : ℚ) (out : DF) :
    (remove_cancelled_fare_pairs df matched).map Prod.fst
        = List.range (remove_cancelled_fare_pairs df matched).length ∧
      (remove_outliers df durCol distCol lower upper = Except.ok out →
        out.map Prod.fst = List.range out.length) := by
  constructor
  · simp only [remove_cancelled_fare_pairs]
    exact resetIndex_map_fst _
  · intro h
    unfold remove_outliers at h
    split at h
    · exact absurd h (by simp)
    · simp only [Except.ok.injEq] at h
      rw [← h]
      exact resetIndex_map_fst _

/-- Witness for C10 at a concrete table: the cancellation part at `exC1`
with no matched pairs, and the outlier part at `exO` with the default
0.01/0.99 bounds. -/
theorem outputs_have_reset_index_witness :
    (remove_cancelled_fare_pairs exO []).map Prod.fst
        = List.range (remove_cancelled_fare_pairs exO []).length ∧
      ([(0, rowO 2)] : DF).map Prod.fst = List.range ([(0, rowO 2)] : DF).length :=
  ⟨(outputs_have_reset_index exO [] "duration_mins" "trip_distance"
      (1 / 100) (99 / 100) [(0, rowO 2)]).1,
   (outputs_have_reset_index exO [] "duration_mins" "trip_distance"
      (1 / 100) (99 / 100) [(0, rowO 2)]).2 (by decide)⟩

lemma resetIndex_map_snd (l : List (Nat × Row)) :
    (resetIndex l).map Prod.snd = l.map Prod.snd :=
  resetIndexFrom_map_snd l 0

lemma resetIndex_length (l : List (Nat × Row)) :
    (resetIndex l).length = l.length :=
  resetIndexFrom_length l 0

/-- C3, counterexample: on a table whose positivity filter keeps zero rows,
`remove_outliers` does not fail — it returns an empty table (the quantiles
of the empty filtered set are NaN and the band test rejects every row), so
the claimed `EmptyInputError` never happens. -/
theorem c3_counterexample :
    positivityFilter exNeg "duration_mins" "trip_distance" = [] ∧
      remove_outliers exNeg "duration_mins" "trip_distance" (1 / 100) (99 / 100)
        = Except.ok [] := by
  constructor
  · decide
  · decide

/-- C3, amended: with quantile bounds inside [0, 1], an input whose
positivity filter keeps zero rows makes `remove_outliers` return an empty
table rather than raise. -/
theorem remove_outliers_empty_filter (df : DF) (durCol distCol : String) (lo hi : ℚ)
    (h1 : 0 ≤ lo) (h2 : lo ≤ 1) (h3 : 0 ≤ hi) (h4 : hi ≤ 1)
    (h0 : positivityFilter df durCol distCol = []) :
    remove_outliers df durCol distCol lo hi = Except.ok [] := by
  unfold remove_outliers
  rw [if_neg (by push_neg; exact ⟨h1, h2, h3, h4⟩)]
  simp only [h0]
  rfl

/-- Witness for the amended C3 at the empty table with the default
0.01 and 0.99 bounds. -/
theorem remove_outliers_empty_filter_witness :
    remove_outliers [] "duration_mins" "trip_distance" (1 / 100) (99 / 100)
      = Except.ok [] :=
  remove_outliers_empty_filter [] "duration_mins" "trip_distance" (1 / 100) (99 / 100)
    (by norm_num) (by norm_num) (by norm_num) (by norm_num) rfl

/-- C5, counterexample: with lower = upper = 1/2 (so lower ≥ upper),
`remove_outliers` neither fails nor returns no result: it computes the
median band [2, 2] over `exO` and returns the median row. -/
theorem c5_counterexample :
    (1 : ℚ) / 2 ≥ (1 : ℚ) / 2 ∧
      remove_outliers exO "duration_mins" "trip_distance" (1 / 2) (1 / 2)
        = Except.ok [(0, rowO 2)] := by
  constructor
  · exact le_refl _
  · decide

/-- C5, amended: the code validates nothing itself; the call fails if and
only if a quantile argument lies outside [0, 1] (the error pandas'
quantile raises), and `lower ≥ upper` is not an error. -/
theorem remove_outliers_ok_iff (df : DF) (durCol distCol : String) (lo hi : ℚ) :
    (∃ out, remove_outliers df durCol distCol lo hi = Except.ok out) ↔
      0 ≤ lo ∧ lo ≤ 1 ∧ 0 ≤ hi ∧ hi ≤ 1 := by
  unfold remove_outliers
  split
  case isTrue h =>
    constructor
    · rintro ⟨out, hout⟩
      exact absurd hout (by simp)
    · rintro ⟨a1, a2, a3, a4⟩
      exfalso
      rcases h with h | h | h | h <;> linarith
  case isFalse h =>
    push_neg at h
    constructor
    · intro _
      exact h
    · intro _
      exact ⟨_, rfl⟩

/-- Witness for the amended C5: bounds 1/2 and 1/2 are in range, so the
call succeeds even though lower ≥ upper. -/
theorem remove_outliers_ok_iff_witness :
    ∃ out, remove_outliers exO "duration_mins" "trip_distance" (1 / 2) (1 / 2)
      = Except.ok out :=
  (remove_outliers_ok_iff exO "duration_mins" "trip_distance" (1 / 2) (1 / 2)).mpr
    (by norm_num)

/-- C6, counterexample: `identify_cancelled_rides` mutates the caller's
table when an identity field is null — on `exN` the null vendor cell is
replaced by the placeholder, so the input is not left unchanged. -/
theorem c6_counterexample :
    (identify_cancelled_rides exN exIds exFees).1 ≠ exN := by
  decide

lemma list_map_eq_self_iff {α : Type} {f : α → α} {l : List α} :
    l.map f = l ↔ ∀ a ∈ l, f a = a := by
  induction l with
  | nil => simp
  | cons a l ih => simp [ih]

lemma fillCell_eq_self_iff (ids fees : List String) (c : String) (v : Val) :
    fillCell ids fees c v = v ↔ ((c ∈ ids ∨ c ∈ fees) → v ≠ Val.null) := by
  by_cases h1 : c ∈ ids
  · by_cases h2 : v = Val.null <;> simp [fillCell, h1, h2]
  · by_cases h2 : c ∈ fees
    · by_cases h3 : v = Val.null <;> simp [fillCell, h1, h2, h3]
    · simp [fillCell, h1, h2]

/-- C6, amended: `remove_cancelled_fare_pairs` never writes to its input;
`identify_cancelled_rides` writes its in-place null fill into the caller's
table, and leaves the table unchanged exactly when no identity-column or
monetary-column cell is null — nulls in unrelated columns are allowed and
preserved. -/
theorem identify_preserves_input_iff (df : DF) (ids fees : List String) :
    (identify_cancelled_rides df ids fees).1 = df ↔
      ∀ p ∈ df, ∀ e ∈ p.2, (e.1 ∈ ids ∨ e.1 ∈ fees) → e.2 ≠ Val.null := by
  rw [identify_fst_eq, list_map_eq_self_iff]
  constructor
  · intro h p hp e he hmem
    have h1 : (p.1, fillRow ids fees p.2) = p := h p hp
    have h2 : fillRow ids fees p.2 = p.2 := congrArg Prod.snd h1
    simp only [fillRow] at h2
    rw [list_map_eq_self_iff] at h2
    have h3 : (e.1, fillCell ids fees e.1 e.2) = e := h2 e he
    have h4 : fillCell ids fees e.1 e.2 = e.2 := congrArg Prod.snd h3
    exact (fillCell_eq_self_iff ids fees e.1 e.2).mp h4 hmem
  · intro h p hp
    show (p.1, fillRow ids fees p.2) = p
    have h2 : fillRow ids fees p.2 = p.2 := by
      apply list_map_eq_self
      intro e he
      show (e.1, fillCell ids fees e.1 e.2) = e
      rw [(fillCell_eq_self_iff ids fees e.1 e.2).mpr (h p hp e he)]
    rw [h2]

/-- Witness for the amended C6: a table whose only null sits in a column
outside the identity and monetary lists is left unchanged. -/
theorem identify_preserves_input_iff_witness :
    (∀ p ∈ exU, ∀ e ∈ p.2, (e.1 ∈ exIds ∨ e.1 ∈ exFees) → e.2 ≠ Val.null) ∧
      (identify_cancelled_rides exU exIds exFees).1 = exU :=
  ⟨by decide, (identify_preserves_input_iff exU exIds exFees).mpr (by decide)⟩

/-- C4: on success, `remove_outliers` returns at most as many rows as it
was given, and every returned row has strictly positive duration and
distance and lies inside the inclusive quantile bands computed over the
positivity-filtered data. -/
theorem remove_outliers_sound (df : DF) (durCol distCol : String) (lo hi : ℚ) (out : DF)
    (h : remove_outliers df durCol distCol lo hi = Except.ok out) :
    out.length ≤ df.length ∧
      ∀ r ∈ out.map Prod.snd,
        Val.gt0 (r.get durCol) = true ∧ Val.gt0 (r.get distCol) = true ∧
        betweenO (valQ (r.get durCol))
          (seriesQuantile (colVals (positivityFilter df durCol distCol) durCol) lo)
          (seriesQuantile (colVals (positivityFilter df durCol distCol) durCol) hi) = true ∧
        betweenO (valQ (r.get distCol))
          (seriesQuantile (colVals (positivityFilter df durCol distCol) distCol) lo)
          (seriesQuantile (colVals (positivityFilter df durCol distCol) distCol) hi) = true := by
  unfold remove_outliers at h
  split at h
  · exact absurd h (by simp)
  · simp only [Except.ok.injEq] at h
    subst h
    constructor
    · rw [resetIndex_length]
      exact le_trans (List.length_filter_le _ _) (List.length_filter_le _ df)
    · intro r hr
      rw [resetIndex_map_snd] at hr
      obtain ⟨p, hp, rfl⟩ := List.mem_map.mp hr
      have h1 := List.mem_filter.mp hp
      have hb := h1.2
      rw [Bool.and_eq_true] at hb
      have h2 : p ∈ df.filter
          (fun q => Val.gt0 (q.2.get durCol) && Val.gt0 (q.2.get distCol)) := h1.1
      have hg := (List.mem_filter.mp h2).2
      rw [Bool.and_eq_true] at hg
      exact ⟨hg.1, hg.2, hb.1, hb.2⟩

/-- Witness for C4 at `exO` with the default 0.01 and 0.99 bounds: the
returned median row satisfies positivity and both bands. -/
theorem remove_outliers_sound_witness :
    ([(0, rowO 2)] : DF).length ≤ exO.length ∧
      ∀ r ∈ ([(0, rowO 2)] : DF).map Prod.snd,
        Val.gt0 (r.get "duration_mins") = true ∧ Val.gt0 (r.get "trip_distance") = true ∧
        betweenO (valQ (r.get "duration_mins"))
          (seriesQuantile (colVals (positivityFilter exO "duration_mins" "trip_distance")
            "duration_mins") (1 / 100))
          (seriesQuantile (colVals (positivityFilter exO "duration_mins" "trip_distance")
            "duration_mins") (99 / 100)) = true ∧
        betweenO (valQ (r.get "trip_distance"))
          (seriesQuantile (colVals (positivityFilter exO "duration_mins" "trip_distance")
            "trip_distance") (1 / 100))
          (seriesQuantile (colVals (positivityFilter exO "duration_mins" "trip_distance")
            "trip_distance") (99 / 100)) = true :=
  remove_outliers_sound exO "duration_mins" "trip_distance" (1 / 100) (99 / 100)
    [(0, rowO 2)] (by decide)

/-! ## C2: the matched pairs agree with the spec-side join definition -/

lemma map_snd_filter_snd {β : Type} (p : β → Bool) (l : List (Nat × β)) :
    (l.filter (fun q => p q.2)).map Prod.snd = (l.map Prod.snd).filter p := by
  induction l with
  | nil => rfl
  | cons a l ih =>
    by_cases h : p a.2
    · simp [List.filter_cons, h, ih]
    · simp [List.filter_cons, h, ih]

lemma mergedPairs_eq (pos : List (Nat × Row)) (ids : List String) :
    ∀ neg : List (Nat × Row), mergedPairs neg pos ids =
      (neg.map Prod.snd).flatMap (fun n =>
        ((pos.map Prod.snd).filter (fun p => keyOf ids p == keyOf ids n)).map
          (fun p => (n, p))) := by
  intro neg
  induction neg with
  | nil => rfl
  | cons a neg ih =>
    unfold mergedPairs at ih ⊢
    rw [List.flatMap_cons, List.map_cons, List.flatMap_cons, ih]
    congr 1
    rw [← map_snd_filter_snd (fun p => keyOf ids p == keyOf ids a.2) pos, List.map_map]
    rfl

/-- C2: the row contents of the matched pairs returned by
`identify_cancelled_rides` are exactly the spec-side result: the full
cross-product of the negative group against the positive group within each
identity-key bucket, restricted to the pairs whose monetary fields are
exact negations of each other. -/
theorem identify_matches_spec_join (df : DF) (ids fees : List String) :
    (identify_cancelled_rides df ids fees).2.map Prod.snd
      = specMatchedPairs (df.map Prod.snd) ids fees := by
  simp only [identify_cancelled_rides]
  rw [withIdx_filter_map_snd (matchedFees fees)]
  rw [mergedPairs_eq]
  simp only [specMatchedPairs, specJoinPairs]
  rw [map_snd_filter_snd (isNegRow fees), map_snd_filter_snd (isPosRow fees),
    map_snd_fill]

/-! ## C8: idempotence of the resolution pipeline -/

/-- C8, counterexample: the pipeline is not idempotent.  On `exC8` the
matched pair (zero fares, tips +3 and -3) survives the first pass because
removal targets merged-frame positions, so a second pass removes a further
row and the output changes. -/
theorem c8_counterexample :
    resolve_cancellations (resolve_cancellations exC8 exIds exFees2) exIds exFees2
      ≠ resolve_cancellations exC8 exIds exFees2 := by
  decide

/-- C8, amended (restoring the spec's own qualifier): if the first pass's
output contains no matchable pairs, a second pass returns it unchanged —
nothing is marked for removal, every remaining fare is already
non-negative, and the index is already reset. -/
theorem resolve_cancellations_idem_of_no_pairs (df : DF) (ids fees : List String)
    (h : (identify_cancelled_rides (resolve_cancellations df ids fees) ids fees).2 = []) :
    resolve_cancellations (resolve_cancellations df ids fees) ids fees
      = resolve_cancellations df ids fees := by
  have hsub : ∀ p ∈ resolve_cancellations df ids fees,
      p.2 ∈ ((identify_cancelled_rides df ids fees).1).map Prod.snd := by
    intro p hp
    exact snd_mem_of_mem_remove (by rw [resolve_eq] at hp; exact hp)
  have hfix : ∀ p ∈ resolve_cancellations df ids fees, fillRow ids fees p.2 = p.2 := by
    intro p hp
    have h2 := hsub p hp
    rw [identify_fst_eq, map_snd_fill] at h2
    obtain ⟨r, _, hr⟩ := List.mem_map.mp h2
    rw [← hr, fillRow_idem]
  have hid1 : (identify_cancelled_rides (resolve_cancellations df ids fees) ids fees).1
      = resolve_cancellations df ids fees := by
    rw [identify_fst_eq]
    apply list_map_eq_self
    intro p hp
    show (p.1, fillRow ids fees p.2) = p
    rw [hfix p hp]
  have hge : ∀ p ∈ resolve_cancellations df ids fees,
      Val.ge0 (p.2.get "fare_amount") = true := by
    intro p hp
    exact ge0_of_mem_remove (by rw [resolve_eq] at hp; exact hp)
  rw [resolve_eq (resolve_cancellations df ids fees), hid1, h]
  simp only [remove_cancelled_fare_pairs, List.map_nil]
  have h1 : (resolve_cancellations df ids fees).filter
      (fun p => !(([] : List Nat).contains p.1)) = resolve_cancellations df ids fees := by
    apply List.filter_eq_self.mpr
    intro a _
    rfl
  rw [h1, List.filter_eq_self.mpr hge]
  rw [resolve_eq df]
  simp only [remove_cancelled_fare_pairs]
  exact resetIndex_resetIndex _

/-- Witness for the amended C8: `exC1`'s first-pass output has no
matchable pairs, and the second pass leaves it unchanged. -/
theorem resolve_cancellations_idem_witness :
    (identify_cancelled_rides (resolve_cancellations exC1 exIds exFees) exIds exFees).2
        = [] ∧
      resolve_cancellations (resolve_cancellations exC1 exIds exFees) exIds exFees
        = resolve_cancellations exC1 exIds exFees :=
  ⟨by decide, resolve_cancellations_idem_of_no_pairs exC1 exIds exFees (by decide)⟩
